import Mathlib

set_option maxRecDepth 100000

/-!
Verification of the kdbus core (bus.c, ns.c, metadata.c) against its
natural-language specification.

The C sources are shallowly embedded as executable Lean functions.
Machine integers are modelled as `Nat` (all relevant values are small or
explicitly bounded by hypotheses `< 2^64`); C `int` return values are
modelled as `Int` so that the kernel convention "negative errno" is
visible.  External fallible calls (allocators, character-device
registration, copy_from_user, ...) are modelled by explicit oracle
parameters - one `Bool`/`Int` per call site - so every error path of the
source is reachable in the model.

A few identifiers referenced by the sources live in headers that are not
part of the repository snapshot (kdbus.h / kdbus_internal.h).  Their
definitions are modelled from the specification and are marked
`Modelled from the spec:` in their doc comments.  Everything else is a
direct translation of the C.
-/

/-- Error number EPERM (1). -/
def EPERM : Int := 1

/-- Error number ENOMEM (12). -/
def ENOMEM : Int := 12

/-- Error number EFAULT (14). -/
def EFAULT : Int := 14

/-- Error number EEXIST (17). -/
def EEXIST : Int := 17

/-- Error number EINVAL (22). -/
def EINVAL : Int := 22

/-- Error number ENAMETOOLONG (36). -/
def ENAMETOOLONG : Int := 36

/-- Error number EBADMSG (74). -/
def EBADMSG : Int := 74

/-- Error number EMSGSIZE (90). -/
def EMSGSIZE : Int := 90

/-- Error number ENOTSUPP (kernel-internal, 524). -/
def ENOTSUPP : Int := 524

/-- The macro KDBUS_ALIGN8(l) = (((l) + 7) & ~7) from src/test/kdbus-util.h,
written arithmetically: round `l` up to the next multiple of 8. -/
def KDBUS_ALIGN8 (l : Nat) : Nat := (l + 7) / 8 * 8

/-- Modelled from the spec: KDBUS_ITEM_HEADER_SIZE = offsetof(struct kdbus_item, data).
`struct kdbus_item` itself lives in the missing kdbus.h; spec section 3 gives the item
layout `{ u64 size; u64 type; u8 payload[size - 16] }`, so the header is 16 bytes. -/
def KDBUS_ITEM_HEADER_SIZE : Nat := 16

/-- The macro KDBUS_ITEM_SIZE(s) = KDBUS_ALIGN8((s) + KDBUS_ITEM_HEADER_SIZE)
from src/test/kdbus-util.h. -/
def KDBUS_ITEM_SIZE (s : Nat) : Nat := KDBUS_ALIGN8 (s + KDBUS_ITEM_HEADER_SIZE)

/-- The macro KDBUS_IS_ALIGNED8(s) = (((s) & 7) == 0). -/
def KDBUS_IS_ALIGNED8 (s : Nat) : Bool := s % 8 == 0

/-- Modelled from the spec: the item type constant KDBUS_CMD_MAKE_NAME from the
missing kdbus.h.  Only distinctness from the other item types matters. -/
def KDBUS_CMD_MAKE_NAME : Nat := 1

/-- Modelled from the spec: the item type constant KDBUS_CMD_MAKE_CGROUP from the
missing kdbus.h.  Only distinctness from the other item types matters. -/
def KDBUS_CMD_MAKE_CGROUP : Nat := 2

/-- Little-endian byte serialization of a u64 value (8 bytes). -/
def le64 (x : Nat) : List Nat := (List.range 8).map (fun i => x / 256 ^ i % 256)

/-- Little-endian reading of a u64 from the first 8 bytes of a byte list
(missing bytes read as 0); models `item->data64[0]`. -/
def readLe64 (b : List Nat) : Nat :=
  ((List.range 8).map (fun i => b.getD i 0 % 256 * 256 ^ i)).sum

/-- Modelled from the spec: `kdbus_validate_nul(s, l)` from the missing
kdbus_internal.h.  Spec section 4.4: "require payload is a valid NUL-terminated
string".  The byte list must be nonempty, end in a NUL byte, and contain no
earlier NUL. -/
def kdbus_validate_nul (b : List Nat) : Bool :=
  match b.getLast? with
  | some 0 => !(b.dropLast.contains 0)
  | _ => false

/-- One item of the make-bus TLV frame: the declared size field, the type
field, and the payload bytes that follow the 16-byte item header. -/
structure KdbusCmdMakeItem where
  size : Nat
  type : Nat
  payload : List Nat
deriving DecidableEq

/-- The fixed header of `struct kdbus_cmd_bus_make` (spec section 6: offsets 0/8/16)
followed by the item region, represented at item granularity. -/
structure KdbusCmdBusMake where
  size : Nat
  flags : Nat
  bloom_size : Nat
  items : List KdbusCmdMakeItem
deriving DecidableEq

/-- The scratch-parse state accumulated by the item loop of
`kdbus_bus_make_user`: `km->name` (payload bytes of the accepted MAKE_NAME
item, NUL included) and `km->cgroup_id`.  `memset(km, 0, ...)` initializes
both to none/0. -/
structure KdbusBusParseState where
  name : Option (List Nat)
  cgroup_id : Nat
deriving DecidableEq

/-- The parsed command `struct kdbus_cmd_bus_kmake` delivered on success. -/
structure KdbusCmdBusKmake where
  name : Option (List Nat)
  cgroup_id : Nat
  make : KdbusCmdBusMake
deriving DecidableEq

/-- Loop body of KDBUS_ITEM_FOREACH in `kdbus_bus_make_user` (src/bus.c lines
194-240): validates one item and updates the parse state, or fails with the
negative errno of the corresponding `goto out_err` path. -/
def kdbus_bus_make_user_item (st : KdbusBusParseState) (item : KdbusCmdMakeItem) :
    Except Int KdbusBusParseState :=
  if item.size ≤ KDBUS_ITEM_HEADER_SIZE then .error (-EINVAL)
  else if item.type = KDBUS_CMD_MAKE_NAME then
    if st.name.isSome then .error (-EEXIST)
    else if item.size < KDBUS_ITEM_HEADER_SIZE + 2 then .error (-EINVAL)
    else if item.size > KDBUS_ITEM_HEADER_SIZE + 64 then .error (-ENAMETOOLONG)
    else if ¬ kdbus_validate_nul (item.payload.take (item.size - KDBUS_ITEM_HEADER_SIZE)) then
      .error (-EINVAL)
    else .ok { st with name := some (item.payload.take (item.size - KDBUS_ITEM_HEADER_SIZE)) }
  else if item.type = KDBUS_CMD_MAKE_CGROUP then
    if st.cgroup_id ≠ 0 then .error (-EEXIST)
    else .ok { st with cgroup_id := readLe64 item.payload }
  else .error (-ENOTSUPP)

/-- The KDBUS_ITEM_FOREACH loop of `kdbus_bus_make_user`: iterate items while
the cursor (byte offset from the start of the `make` header; the first item
sits at offset 24) is below `limit` = `km->make.size`, advancing by
KDBUS_ALIGN8(item->size).  Returns the final state and final cursor.  If the
cursor is still below the limit but the supplied item list is exhausted the
physical buffer content is outside the model; this is flagged as the marker
error 1, which no theorem relies on. -/
def kdbus_items_foreach (st : KdbusBusParseState) (cursor limit : Nat)
    (items : List KdbusCmdMakeItem) : Except Int (KdbusBusParseState × Nat) :=
  if limit ≤ cursor then .ok (st, cursor)
  else
    match items with
    | [] => .error 1
    | item :: rest =>
      match kdbus_bus_make_user_item st item with
      | .error e => .error e
      | .ok st2 => kdbus_items_foreach st2 (cursor + KDBUS_ALIGN8 item.size) limit rest

/-- Translation of `kdbus_bus_make_user` (src/bus.c lines 171-266).  The user
buffer is represented by the decoded `make` frame; `sizeGetOk`, `copyOk` and
`allocOk` are the oracles for `kdbus_size_get_user`, `copy_from_user` and
`kmalloc`.  The returned pair is (C return value, `*kmake` if it was set).
Note the two faithful oddities of the source: the padding check returns
positive `EINVAL` (line 244, `return EINVAL;`), and the alignment check
returns `-EINVAL` directly (line 252). -/
def kdbus_bus_make_user (make : KdbusCmdBusMake) (sizeGetOk allocOk copyOk : Bool) :
    Int × Option KdbusCmdBusKmake :=
  if ¬ sizeGetOk then (-EFAULT, none)
  else if make.size < 24 ∨ make.size > 0xffff then (-EMSGSIZE, none)
  else if ¬ allocOk then (-ENOMEM, none)
  else if ¬ copyOk then (-EFAULT, none)
  else
    match kdbus_items_foreach ⟨none, 0⟩ 24 make.size make.items with
    | .error e => (e, none)
    | .ok (st, cursor) =>
      if make.size + 8 ≤ cursor then (EINVAL, none)
      else if st.name = none then (-EBADMSG, none)
      else if ¬ KDBUS_IS_ALIGNED8 make.bloom_size then (-EINVAL, none)
      else if make.bloom_size < 8 ∨ make.bloom_size > 16 * 1024 then (-EINVAL, none)
      else (0, some ⟨st.name, st.cgroup_id, make⟩)

/-- C `strncmp` on byte strings: the lists carry the bytes of the string
without the trailing NUL; reading past the end yields the NUL byte 0.
Comparison stops at the first difference, at a NUL, or after `n` bytes. -/
def strncmp (a b : List Nat) : Nat → Int
  | 0 => 0
  | n + 1 =>
    let x := a.headD 0
    let y := b.headD 0
    if x ≠ y then (x : Int) - (y : Int)
    else if x = 0 then 0
    else strncmp a.tail b.tail n

/-- The bytes produced by `snprintf(prefix, 16, "%u-", uid)` in
`kdbus_bus_new`: the decimal digits of the uid followed by a dash,
truncated to 15 characters (never reached for 32-bit uids). -/
def uidDashBytes (uid : Nat) : List Nat :=
  (((Nat.repr uid).toList.map Char.toNat) ++ [45]).take 15

/-- One endpoint as seen by the bus teardown walk.  ep.c is not part of the
snapshot; only the `disconnected` flag matters here. -/
structure KdbusEp where
  disconnected : Bool
deriving DecidableEq

/-- Modelled from the spec: `kdbus_ep_disconnect` (ep.c is missing from the
snapshot).  Spec section 4.1: disconnect transitions the `disconnected` flag to
true (idempotently) and terminates the endpoint's connections. -/
def kdbus_ep_disconnect (e : KdbusEp) : KdbusEp := { e with disconnected := true }

/-- A bus object (`struct kdbus_bus`), restricted to the fields the claims
touch.  `linked` models membership in the owning namespace's `bus_list`
(the `bus_entry` list node). -/
structure KdbusBus where
  id : Nat
  name : List Nat
  bus_flags : Nat
  bloom_size : Nat
  cgroup_id : Nat
  conn_id_next : Nat
  disconnected : Bool
  linked : Bool
  eps : List KdbusEp
deriving DecidableEq

/-- The namespace state `kdbus_bus_new` reads and writes: its bus list and
its `bus_id_next` counter. -/
structure KdbusNsBus where
  bus_list : List KdbusBus
  bus_id_next : Nat
deriving DecidableEq

/-- Translation of `kdbus_bus_find` (src/bus.c lines 89-105): linear search of
the namespace's bus list by strcmp-equality of names. -/
def kdbus_bus_find (ns : KdbusNsBus) (name : List Nat) : Option KdbusBus :=
  ns.bus_list.find? (fun b => b.name == name)

/-- Translation of `kdbus_bus_new` (src/bus.c lines 107-169).  `allocBus`,
`allocStr`, `allocReg` are the oracles for the `kzalloc`, `kstrdup` and
`kdbus_name_registry_new` calls; `epRet` is the result of `kdbus_ep_new`.
The prefix check is translated verbatim from line 116, including the
misplaced parenthesis: the *comparison* `strlen(prefix) != 0` (always 1 for a
nonempty prefix) is passed as the strncmp length, so only one byte of the
name is compared against the "<uid>-" prefix. -/
def kdbus_bus_new (ns : KdbusNsBus) (kmName : List Nat) (kmFlags kmBloom kmCgroup : Nat)
    (uid : Nat) (allocBus allocStr allocReg : Bool) (epRet : Int) :
    Int × KdbusNsBus × Option KdbusBus :=
  let p := uidDashBytes uid
  let n : Nat := if p.length ≠ 0 then 1 else 0
  if strncmp kmName p n ≠ 0 then (-EPERM, ns, none)
  else if (kdbus_bus_find ns kmName).isSome then (-EEXIST, ns, none)
  else if ¬ allocBus then (-ENOMEM, ns, none)
  else if ¬ allocStr then (-ENOMEM, ns, none)
  else if ¬ allocReg then (-ENOMEM, ns, none)
  else if epRet < 0 then (epRet, ns, none)
  else
    let b : KdbusBus :=
      { id := ns.bus_id_next, name := kmName, bus_flags := kmFlags,
        bloom_size := kmBloom, cgroup_id := kmCgroup, conn_id_next := 1,
        disconnected := false, linked := true, eps := [{ disconnected := false }] }
    (0, { bus_list := ns.bus_list ++ [b], bus_id_next := ns.bus_id_next + 1 }, some b)

/-- Translation of `kdbus_bus_disconnect` (src/bus.c lines 71-87): if already
disconnected return unchanged; otherwise set the flag, unlink from the
namespace bus list (`list_del`), and disconnect every attached endpoint. -/
def kdbus_bus_disconnect (b : KdbusBus) : KdbusBus :=
  if b.disconnected then b
  else { b with disconnected := true, linked := false,
                eps := b.eps.map kdbus_ep_disconnect }

/-- A namespace object (`struct kdbus_ns`), restricted to the fields the
claims touch.  `parent` is the identity (id) of the parent namespace, the
model of the `parent` pointer; `linked` models membership in the global
`namespace_list`; `hasDev` models `ns->dev != NULL`. -/
structure KdbusNs where
  id : Nat
  parent : Option Nat
  name : Option (List Nat)
  major : Int
  hasDev : Bool
  linked : Bool
  disconnected : Bool
deriving DecidableEq

/-- The global state of ns.c: the `namespace_list` and the
`kdbus_ns_id_next` counter. -/
structure NsGlobal where
  namespace_list : List KdbusNs
  ns_id_next : Nat
deriving DecidableEq

/-- Translation of `kdbus_ns_find` (src/ns.c lines 96-114): linear search for
an entry with the same parent and strcmp-equal name.  The C calls
`strcmp(n->name, name)`: both operands are non-NULL whenever a child
namespace is looked up; for the root lookup both are NULL, which the model
treats as equal (the C would dereference NULL there). -/
def kdbus_ns_find (g : NsGlobal) (parent : Option Nat) (name : Option (List Nat)) :
    Option KdbusNs :=
  g.namespace_list.find? (fun n => n.parent == parent && n.name == name)

/-- Modelled from the spec: the fixed well-known character-device major for the
root namespace (`KDBUS_CHAR_MAJOR` from the missing kdbus_internal.h); the
exact value is irrelevant, only that it is positive. -/
def KDBUS_CHAR_MAJOR : Int := 222

/-- Oracles for the external calls inside `kdbus_ns_new`, one per call site:
`kzalloc(ns)`, `kstrdup(name)`, devpath `kstrdup`/`kasprintf`,
`register_chrdev` (its return value), `idr_alloc` (whether `i > 0`),
`kzalloc(dev)` and `device_register`.  `uninitRet` is the value of the
local variable `ret` on paths where the C never assigned it. -/
structure NsNewOracles where
  allocNs : Bool
  allocName : Bool
  allocPath : Bool
  chrdevRet : Int
  idrOk : Bool
  allocDev : Bool
  devRegRet : Int
  uninitRet : Int
deriving DecidableEq

/-- Common tail of `kdbus_ns_new` (src/ns.c lines 182-224): idr insertion, id
assignment (which increments the global counter even if a later step fails),
control-device allocation and registration, and insertion into the global
list.  `retCur` is the value the local `ret` holds on entry (0 for the root
path, unassigned for the child path): the `if (!n->dev) goto err_unlock;` at
line 197 returns it unchanged - the source never sets `ret = -ENOMEM` there. -/
def kdbus_ns_new_common (g : NsGlobal) (parent : Option Nat) (name : Option (List Nat))
    (major retCur : Int) (o : NsNewOracles) : Int × NsGlobal × Option KdbusNs :=
  if ¬ o.idrOk then (-EEXIST, g, none)
  else
    let newId := g.ns_id_next
    let g1 : NsGlobal := { g with ns_id_next := g.ns_id_next + 1 }
    if ¬ o.allocDev then (retCur, g1, none)
    else if o.devRegRet < 0 then (o.devRegRet, g1, none)
    else
      let n : KdbusNs := { id := newId, parent := parent, name := name, major := major,
                           hasDev := true, linked := true, disconnected := false }
      (0, { g1 with namespace_list := g1.namespace_list ++ [n] }, some n)

/-- Translation of `kdbus_ns_new` (src/ns.c lines 116-225).  Returns the C
return value, the new global state, and `*ns` if it was set. -/
def kdbus_ns_new (g : NsGlobal) (parent : Option Nat) (name : Option (List Nat))
    (mode : Nat) (o : NsNewOracles) : Int × NsGlobal × Option KdbusNs :=
  if (parent.isSome ∧ name = none) ∨ (parent = none ∧ name.isSome) then (-EINVAL, g, none)
  else if (kdbus_ns_find g parent name).isSome then (-EEXIST, g, none)
  else if ¬ o.allocNs then (-ENOMEM, g, none)
  else if name.isSome ∧ ¬ o.allocName then (-ENOMEM, g, none)
  else
    match parent with
    | none =>
      if ¬ o.allocPath then (-ENOMEM, g, none)
      else if o.chrdevRet ≠ 0 then (o.chrdevRet, g, none)
      else kdbus_ns_new_common g none none KDBUS_CHAR_MAJOR o.chrdevRet o
    | some _ =>
      if ¬ o.allocPath then (-ENOMEM, g, none)
      else if o.chrdevRet < 0 then (o.chrdevRet, g, none)
      else kdbus_ns_new_common g parent name o.chrdevRet o.uninitRet o

/-- Translation of `kdbus_ns_disconnect` (src/ns.c lines 61-78): if already
disconnected return unchanged; otherwise set the flag, unlink from the global
list, unregister the control device if present, and release the major if
positive. -/
def kdbus_ns_disconnect (n : KdbusNs) : KdbusNs :=
  if n.disconnected then n
  else
    let n1 := { n with disconnected := true, linked := false }
    let n2 := if n1.hasDev then { n1 with hasDev := false } else n1
    if n2.major > 0 then { n2 with major := 0 } else n2

/-- Bitwise complement on u64, `~x` for `x < 2^64`, written as xor with the
all-ones word. -/
def not64 (x : Nat) : Nat := (2 ^ 64 - 1) ^^^ x

/-- Modelled from the spec: KDBUS_ATTACH_TIMESTAMP attach-mask bit (kdbus.h is
missing; only distinctness of the bits matters). -/
def KDBUS_ATTACH_TIMESTAMP : Nat := 1

/-- Modelled from the spec: KDBUS_ATTACH_CREDS attach-mask bit. -/
def KDBUS_ATTACH_CREDS : Nat := 2

/-- Modelled from the spec: KDBUS_ATTACH_AUXGROUPS attach-mask bit. -/
def KDBUS_ATTACH_AUXGROUPS : Nat := 4

/-- Modelled from the spec: KDBUS_ATTACH_NAMES attach-mask bit. -/
def KDBUS_ATTACH_NAMES : Nat := 8

/-- Modelled from the spec: KDBUS_ATTACH_COMM attach-mask bit. -/
def KDBUS_ATTACH_COMM : Nat := 16

/-- Modelled from the spec: KDBUS_ATTACH_EXE attach-mask bit. -/
def KDBUS_ATTACH_EXE : Nat := 32

/-- Modelled from the spec: KDBUS_ATTACH_CMDLINE attach-mask bit. -/
def KDBUS_ATTACH_CMDLINE : Nat := 64

/-- Modelled from the spec: KDBUS_ATTACH_CAPS attach-mask bit. -/
def KDBUS_ATTACH_CAPS : Nat := 128

/-- Modelled from the spec: KDBUS_ATTACH_CGROUP attach-mask bit. -/
def KDBUS_ATTACH_CGROUP : Nat := 256

/-- Modelled from the spec: KDBUS_ATTACH_AUDIT attach-mask bit. -/
def KDBUS_ATTACH_AUDIT : Nat := 512

/-- Modelled from the spec: KDBUS_ATTACH_SECLABEL attach-mask bit. -/
def KDBUS_ATTACH_SECLABEL : Nat := 1024

/-- Modelled from the spec: KDBUS_ATTACH_CONN_NAME attach-mask bit. -/
def KDBUS_ATTACH_CONN_NAME : Nat := 2048

/-- Modelled from the spec: KDBUS_ITEM_TIMESTAMP item type (kdbus.h missing). -/
def KDBUS_ITEM_TIMESTAMP : Nat := 101

/-- Modelled from the spec: KDBUS_ITEM_CREDS item type. -/
def KDBUS_ITEM_CREDS : Nat := 102

/-- Modelled from the spec: KDBUS_ITEM_AUXGROUPS item type. -/
def KDBUS_ITEM_AUXGROUPS : Nat := 103

/-- Modelled from the spec: KDBUS_ITEM_NAME item type. -/
def KDBUS_ITEM_NAME : Nat := 104

/-- Modelled from the spec: KDBUS_ITEM_TID_COMM item type. -/
def KDBUS_ITEM_TID_COMM : Nat := 105

/-- Modelled from the spec: KDBUS_ITEM_PID_COMM item type. -/
def KDBUS_ITEM_PID_COMM : Nat := 106

/-- Modelled from the spec: KDBUS_ITEM_EXE item type. -/
def KDBUS_ITEM_EXE : Nat := 107

/-- Modelled from the spec: KDBUS_ITEM_CMDLINE item type. -/
def KDBUS_ITEM_CMDLINE : Nat := 108

/-- Modelled from the spec: KDBUS_ITEM_CAPS item type. -/
def KDBUS_ITEM_CAPS : Nat := 109

/-- Modelled from the spec: KDBUS_ITEM_CGROUP item type. -/
def KDBUS_ITEM_CGROUP : Nat := 110

/-- Modelled from the spec: KDBUS_ITEM_AUDIT item type. -/
def KDBUS_ITEM_AUDIT : Nat := 111

/-- Modelled from the spec: KDBUS_ITEM_SECLABEL item type. -/
def KDBUS_ITEM_SECLABEL : Nat := 112

/-- Modelled from the spec: KDBUS_ITEM_CONN_NAME item type. -/
def KDBUS_ITEM_CONN_NAME : Nat := 113

/-- Fuel-driven doubling loop underlying `roundup_pow_of_two`. -/
def rupAux : Nat → Nat → Nat → Nat
  | 0, _, acc => acc
  | fuel + 1, n, acc => if n ≤ acc then acc else rupAux fuel n (acc * 2)

/-- The kernel macro `roundup_pow_of_two`: the least power of two that is at
least `n` (for `n ≥ 1`). -/
def roundup_pow_of_two (n : Nat) : Nat := rupAux n n 1

/-- One item of a metadata buffer: the type field, the declared size
(`KDBUS_ITEM_HEADER_SIZE + payload bytes`), and the payload bytes.  The item
occupies `KDBUS_ALIGN8 size` bytes of the buffer. -/
structure KMetaItem where
  type : Nat
  size : Nat
  payload : List Nat
deriving DecidableEq

/-- A metadata object (`struct kdbus_meta`), with its buffer represented at
item granularity: `dataAllocated` models `meta->data != NULL`; `items` is the
sequence of records occupying the first `size` bytes; `allocated_size` and
`attached` are as in the C. -/
structure KdbusMeta where
  dataAllocated : Bool
  items : List KMetaItem
  size : Nat
  allocated_size : Nat
  attached : Nat
deriving DecidableEq

/-- The metadata object produced by `kdbus_meta_new` (src/metadata.c lines
40-60): zero-initialized, no buffer yet. -/
def kdbus_meta_new_obj : KdbusMeta :=
  { dataAllocated := false, items := [], size := 0, allocated_size := 0, attached := 0 }

/-- The record insertion at the end of `kdbus_meta_append_item` (src/metadata.c
lines 130-137), merged with the caller's write of the payload bytes: place the
item at offset `meta->size` with `item->size = header + payload` and advance
`meta->size` by the aligned footprint `KDBUS_ITEM_SIZE(payload len)`. -/
def metaPush (m : KdbusMeta) (ty : Nat) (payload : List Nat) : KdbusMeta :=
  { m with items := m.items ++ [⟨ty, KDBUS_ITEM_HEADER_SIZE + payload.length, payload⟩],
           size := m.size + KDBUS_ITEM_SIZE payload.length }

/-- Translation of `kdbus_meta_append_item` (src/metadata.c lines 93-138):
ensure the buffer exists (the first allocation reserves
`roundup_pow_of_two(256 + extra)` bytes and is recorded even if a later step
fails), grow by rounding `size + extra` up to a power of two when the record
does not fit, then insert the record.  `alloc_ok` is the allocator oracle;
allocation failure returns `-ENOMEM`. -/
def kdbus_meta_append_item (m : KdbusMeta) (ty : Nat) (payload : List Nat)
    (alloc_ok : Bool) : Int × KdbusMeta :=
  let extra := KDBUS_ITEM_SIZE payload.length
  if ¬ m.dataAllocated ∧ ¬ alloc_ok then (-ENOMEM, m)
  else if m.dataAllocated then
    if m.size + extra > m.allocated_size then
      if ¬ alloc_ok then (-ENOMEM, m)
      else (0, metaPush { m with allocated_size := roundup_pow_of_two (m.size + extra) } ty payload)
    else (0, metaPush m ty payload)
  else
    if m.size + extra > roundup_pow_of_two (256 + extra) then
      if ¬ alloc_ok then
        (-ENOMEM, { m with dataAllocated := true,
                           allocated_size := roundup_pow_of_two (256 + extra) })
      else (0, metaPush { m with dataAllocated := true,
                                 allocated_size := roundup_pow_of_two (m.size + extra) } ty payload)
    else (0, metaPush { m with dataAllocated := true,
                               allocated_size := roundup_pow_of_two (256 + extra) } ty payload)

/-- Translation of `kdbus_meta_append_data` (src/metadata.c lines 150-166):
a no-op for `len = 0`; otherwise append an item whose payload is the first
`len` bytes of `data` (space is zero-filled when `data` is NULL or short). -/
def kdbus_meta_append_data (m : KdbusMeta) (ty : Nat) (data : Option (List Nat))
    (len : Nat) (alloc_ok : Bool) : Int × KdbusMeta :=
  if len = 0 then (0, m)
  else
    let buf := match data with
               | some d => d.take len ++ List.replicate (len - d.length) 0
               | none => List.replicate len 0
    kdbus_meta_append_item m ty buf alloc_ok

/-- Translation of `kdbus_meta_append_str` (src/metadata.c lines 168-172):
append the string bytes plus the trailing NUL. -/
def kdbus_meta_append_str (m : KdbusMeta) (ty : Nat) (s : List Nat)
    (alloc_ok : Bool) : Int × KdbusMeta :=
  kdbus_meta_append_data m ty (some (s ++ [0])) (s.length + 1) alloc_ok

/-- Result of `security_secid_to_secctx` as seen by
`kdbus_meta_append_seclabel`. -/
inductive SecLabelRes where
  | notsupp : SecLabelRes
  | fail : Int → SecLabelRes
  | label : List Nat → SecLabelRes
deriving DecidableEq

/-- The process/kernel environment sampled by the metadata collectors: one
field per external value the C reads from `current`, plus the allocator
oracle `alloc_ok` shared by kmalloc and get_free_page call sites. -/
structure MetaEnv where
  alloc_ok : Bool
  mono_ns : Nat
  real_ns : Nat
  uid : Nat
  gid : Nat
  pid : Nat
  tid : Nat
  starttime : Nat
  groups : List Nat
  comm_tid : List Nat
  comm_pid : List Nat
  has_mm : Bool
  exe_path : Option (List Nat)
  dpath_ok : Bool
  arg : Option (List Nat)
  cap_inh : Nat
  cap_prm : Nat
  cap_eff : Nat
  cap_bset : Nat
  cgroup_path : Option (List Nat)
  loginuid : Nat
  sessionid : Nat
  seclabel : SecLabelRes
deriving DecidableEq

/-- The connection fields metadata reads (`conn->name` and the owned
`names_list` entries, each a flags word and a name string). -/
structure KdbusConnM where
  name : Option (List Nat)
  names_list : List (Nat × List Nat)
deriving DecidableEq

/-- Translation of `kdbus_meta_append_timestamp` (src/metadata.c lines
174-195): a `struct kdbus_timestamp` payload `{seqnum, monotonic_ns,
realtime_ns}`; `seqnum` is written only when `seq > 0` (otherwise the
zero-filled buffer content remains). -/
def kdbus_meta_append_timestamp (m : KdbusMeta) (seq : Nat) (env : MetaEnv) :
    Int × KdbusMeta :=
  kdbus_meta_append_item m KDBUS_ITEM_TIMESTAMP
    (le64 (if seq > 0 then seq else 0) ++ le64 env.mono_ns ++ le64 env.real_ns)
    env.alloc_ok

/-- Translation of `kdbus_meta_append_cred` (src/metadata.c lines 197-213):
a 40-byte `struct kdbus_creds` payload `{uid, gid, pid, tid, starttime}`. -/
def kdbus_meta_append_cred (m : KdbusMeta) (env : MetaEnv) : Int × KdbusMeta :=
  kdbus_meta_append_data m KDBUS_ITEM_CREDS
    (some (le64 env.uid ++ le64 env.gid ++ le64 env.pid ++ le64 env.tid ++ le64 env.starttime))
    40 env.alloc_ok

/-- Translation of `kdbus_meta_append_auxgroups` (src/metadata.c lines
215-239): one item whose payload is the u64 group ids (possibly empty:
`kdbus_meta_append_item` is called directly, so zero groups still emit a
header-only item). -/
def kdbus_meta_append_auxgroups (m : KdbusMeta) (env : MetaEnv) : Int × KdbusMeta :=
  kdbus_meta_append_item m KDBUS_ITEM_AUXGROUPS (env.groups.flatMap le64) env.alloc_ok

/-- Inner loop of `kdbus_meta_append_src_names`: append one KDBUS_ITEM_NAME
item per owned name (payload: u64 flags, then the NUL-terminated name),
stopping at the first failure with the partial result kept. -/
def kdbus_meta_append_names_list (m : KdbusMeta) (l : List (Nat × List Nat))
    (alloc_ok : Bool) : Int × KdbusMeta :=
  match l with
  | [] => (0, m)
  | (fl, nm) :: rest =>
    let r := kdbus_meta_append_item m KDBUS_ITEM_NAME (le64 fl ++ nm ++ [0]) alloc_ok
    if r.1 < 0 then r else kdbus_meta_append_names_list r.2 rest alloc_ok

/-- Translation of `kdbus_meta_append_src_names` (src/metadata.c lines
241-269): nothing without a connection, else the names-list loop. -/
def kdbus_meta_append_src_names (m : KdbusMeta) (conn : Option KdbusConnM)
    (env : MetaEnv) : Int × KdbusMeta :=
  match conn with
  | none => (0, m)
  | some c => kdbus_meta_append_names_list m c.names_list env.alloc_ok

/-- Translation of `kdbus_meta_append_exe` (src/metadata.c lines 271-318):
`-EFAULT` without an mm; silently nothing without an exe file; then a page
allocation, `d_path`, and the NUL-terminated path as payload. -/
def kdbus_meta_append_exe (m : KdbusMeta) (env : MetaEnv) : Int × KdbusMeta :=
  if ¬ env.has_mm then (-EFAULT, m)
  else
    match env.exe_path with
    | none => (0, m)
    | some p =>
      if ¬ env.alloc_ok then (-ENOMEM, m)
      else if ¬ env.dpath_ok then (-ENAMETOOLONG, m)
      else kdbus_meta_append_data m KDBUS_ITEM_EXE (some (p ++ [0])) (p.length + 1) env.alloc_ok

/-- Translation of `kdbus_meta_append_cmdline` (src/metadata.c lines 320-357):
a page allocation, `-EFAULT` without an mm, silently nothing without
`arg_end`, else up to one page of raw argv bytes. -/
def kdbus_meta_append_cmdline (m : KdbusMeta) (env : MetaEnv) : Int × KdbusMeta :=
  if ¬ env.alloc_ok then (-ENOMEM, m)
  else if ¬ env.has_mm then (-EFAULT, m)
  else
    match env.arg with
    | none => (0, m)
    | some a =>
      kdbus_meta_append_data m KDBUS_ITEM_CMDLINE (some (a.take 4096)) (min a.length 4096)
        env.alloc_ok

/-- Modelled kernel constant: bits 0 .. CAP_LAST_CAP of a capability word
survive the tail-masking in `kdbus_meta_append_caps` (the exact
kernel-version value of CAP_LAST_CAP is irrelevant to the claims). -/
def capsMask : Nat := 2 ^ 37 - 1

/-- Translation of `kdbus_meta_append_caps` (src/metadata.c lines 359-381):
a 32-byte payload of the four capability sets (inheritable, permitted,
effective, bounding), each masked beyond the last known capability. -/
def kdbus_meta_append_caps (m : KdbusMeta) (env : MetaEnv) : Int × KdbusMeta :=
  kdbus_meta_append_data m KDBUS_ITEM_CAPS
    (some (le64 (env.cap_inh &&& capsMask) ++ le64 (env.cap_prm &&& capsMask) ++
           le64 (env.cap_eff &&& capsMask) ++ le64 (env.cap_bset &&& capsMask)))
    32 env.alloc_ok

/-- Translation of `kdbus_meta_append_cgroup` (src/metadata.c lines 384-403,
CONFIG_CGROUPS enabled): a page allocation, then the NUL-terminated cgroup
path, or `-ENAMETOOLONG` when `task_cgroup_path` yields none. -/
def kdbus_meta_append_cgroup (m : KdbusMeta) (env : MetaEnv) : Int × KdbusMeta :=
  if ¬ env.alloc_ok then (-ENOMEM, m)
  else
    match env.cgroup_path with
    | some p => kdbus_meta_append_str m KDBUS_ITEM_CGROUP p env.alloc_ok
    | none => (-ENAMETOOLONG, m)

/-- Translation of `kdbus_meta_append_audit` (src/metadata.c lines 407-417,
CONFIG_AUDITSYSCALL enabled): a 16-byte `{loginuid, sessionid}` payload. -/
def kdbus_meta_append_audit (m : KdbusMeta) (env : MetaEnv) : Int × KdbusMeta :=
  kdbus_meta_append_data m KDBUS_ITEM_AUDIT
    (some (le64 env.loginuid ++ le64 env.sessionid)) 16 env.alloc_ok

/-- Translation of `kdbus_meta_append_seclabel` (src/metadata.c lines 421-440,
CONFIG_SECURITY enabled): skip on EOPNOTSUPP, propagate other errors, append
the label bytes when nonempty. -/
def kdbus_meta_append_seclabel (m : KdbusMeta) (env : MetaEnv) : Int × KdbusMeta :=
  match env.seclabel with
  | .notsupp => (0, m)
  | .fail e => (e, m)
  | .label l =>
    if l.length > 0 then kdbus_meta_append_data m KDBUS_ITEM_SECLABEL (some l) l.length env.alloc_ok
    else (0, m)

/-- The `if (ret < 0) return ret;` short-circuit of `kdbus_meta_append`: run
the next collector only while no failure occurred. -/
def metaStep (r : Int × KdbusMeta) (f : KdbusMeta → Int × KdbusMeta) : Int × KdbusMeta :=
  if r.1 < 0 then r else f r.2

/-- The conditional collector calls of `kdbus_meta_append` (src/metadata.c
lines 467-554), in source order, each guarded by its attach bit (NAMES and
CONN_NAME additionally by the connection checks of the source). -/
def metaSteps (conn : Option KdbusConnM) (seq mask : Nat) (env : MetaEnv) :
    List (KdbusMeta → Int × KdbusMeta) :=
  [fun m => if mask &&& KDBUS_ATTACH_TIMESTAMP ≠ 0 then
              kdbus_meta_append_timestamp m seq env else (0, m),
   fun m => if mask &&& KDBUS_ATTACH_CREDS ≠ 0 then
              kdbus_meta_append_cred m env else (0, m),
   fun m => if mask &&& KDBUS_ATTACH_AUXGROUPS ≠ 0 then
              kdbus_meta_append_auxgroups m env else (0, m),
   fun m => if mask &&& KDBUS_ATTACH_NAMES ≠ 0 ∧ conn.isSome then
              kdbus_meta_append_src_names m conn env else (0, m),
   fun m => if mask &&& KDBUS_ATTACH_COMM ≠ 0 then
              metaStep (kdbus_meta_append_str m KDBUS_ITEM_TID_COMM env.comm_tid env.alloc_ok)
                (fun m1 => kdbus_meta_append_str m1 KDBUS_ITEM_PID_COMM env.comm_pid env.alloc_ok)
            else (0, m),
   fun m => if mask &&& KDBUS_ATTACH_EXE ≠ 0 then
              kdbus_meta_append_exe m env else (0, m),
   fun m => if mask &&& KDBUS_ATTACH_CMDLINE ≠ 0 then
              kdbus_meta_append_cmdline m env else (0, m),
   fun m => if mask &&& KDBUS_ATTACH_CAPS ≠ 0 then
              kdbus_meta_append_caps m env else (0, m),
   fun m => if mask &&& KDBUS_ATTACH_CGROUP ≠ 0 then
              kdbus_meta_append_cgroup m env else (0, m),
   fun m => if mask &&& KDBUS_ATTACH_AUDIT ≠ 0 then
              kdbus_meta_append_audit m env else (0, m),
   fun m => if mask &&& KDBUS_ATTACH_SECLABEL ≠ 0 then
              kdbus_meta_append_seclabel m env else (0, m),
   fun m => if mask &&& KDBUS_ATTACH_CONN_NAME ≠ 0 ∧ (conn.bind KdbusConnM.name).isSome then
              kdbus_meta_append_str m KDBUS_ITEM_CONN_NAME ((conn.bind KdbusConnM.name).getD [])
                env.alloc_ok
            else (0, m)]

/-- Translation of `kdbus_meta_append` (src/metadata.c lines 455-563): compute
the not-yet-attached part of `which`, return 0 immediately if empty, run the
collectors with the C short-circuit, and only on overall success mark the
whole mask attached. -/
def kdbus_meta_append (m : KdbusMeta) (conn : Option KdbusConnM) (seq which : Nat)
    (env : MetaEnv) : Int × KdbusMeta :=
  let mask := which &&& not64 m.attached
  if mask = 0 then (0, m)
  else
    let r := (metaSteps conn seq mask env).foldl metaStep (0, m)
    if r.1 < 0 then r
    else (0, { r.2 with attached := r.2.attached ||| mask })

theorem KDBUS_ALIGN8_mod8 (l : Nat) : KDBUS_ALIGN8 l % 8 = 0 := by
  unfold KDBUS_ALIGN8; omega

theorem le_KDBUS_ALIGN8 (l : Nat) : l ≤ KDBUS_ALIGN8 l := by
  unfold KDBUS_ALIGN8; omega

theorem rupAux_ge (fuel : Nat) : ∀ n acc : Nat, 0 < acc → n ≤ acc * 2 ^ fuel →
    n ≤ rupAux fuel n acc := by
  induction fuel with
  | zero => intro n acc _ h; simpa using h
  | succ k ih =>
    intro n acc hacc h
    unfold rupAux
    split
    · assumption
    · refine ih n (acc * 2) (by omega) ?_
      have h2 : acc * 2 ^ (k + 1) = acc * 2 * 2 ^ k := by ring
      omega

theorem le_roundup_pow_of_two (n : Nat) : n ≤ roundup_pow_of_two n := by
  unfold roundup_pow_of_two
  refine rupAux_ge n n 1 (by omega) ?_
  simpa using (Nat.lt_two_pow n).le

/-- C1: the claim states that `kdbus_bus_new` returns `EPERM` whenever the
requested name does not begin with the full `"<UID>-"` prefix.  The source
(src/bus.c line 116) passes the comparison `strlen(prefix) != 0` - i.e. the
constant 1 - as the strncmp length, so only the first byte is compared: for
creator uid 1000 the name "1foo" does not begin with "1000-" yet the call
succeeds and creates the bus.  (The specific scenario S2, uid 1000 with name
"999-test", does return -EPERM because already the first byte differs.) -/
theorem kdbus_bus_new_uidCheck_oneByte :
    List.take (uidDashBytes 1000).length [49, 102, 111, 111] ≠ uidDashBytes 1000 ∧
    (kdbus_bus_new ⟨[], 1⟩ [49, 102, 111, 111] 0 64 0 1000 true true true 0).1 = 0 ∧
    (kdbus_bus_new ⟨[], 1⟩ [49, 102, 111, 111] 0 64 0 1000 true true true 0).2.2.isSome = true ∧
    (kdbus_bus_new ⟨[], 1⟩ [57, 57, 57, 45, 116, 101, 115, 116] 0 64 0 1000
        true true true 0).1 = -EPERM := by
  decide

/-- C2: the claim states that when the item iteration completes cleanly but
the final cursor lands 8 or more bytes past `header + header.size`, the parse
fails with a negative `EINVAL`.  The source (src/bus.c line 244) executes
`return EINVAL;` - the positive constant 22 - so the function reports neither
success (0) nor a negative errno.  Concrete run: frame size 40 with a single
valid MAKE_CGROUP item of aligned size 24 starting at offset 24; the cursor
ends at 48 = size + 8, iteration itself reports no error, and the call
returns (+22, no parsed command). -/
theorem kdbus_bus_make_user_paddingCheck_positive :
    kdbus_items_foreach ⟨none, 0⟩ 24 40 [⟨24, KDBUS_CMD_MAKE_CGROUP, le64 7⟩] =
      .ok (⟨none, 7⟩, 48) ∧
    40 + 8 ≤ 48 ∧
    kdbus_bus_make_user ⟨40, 0, 64, [⟨24, KDBUS_CMD_MAKE_CGROUP, le64 7⟩]⟩ true true true =
      (EINVAL, none) ∧
    (0 : Int) < EINVAL :=
  ⟨rfl, by decide, rfl, by decide⟩

/-- C3: the claim states that when the control-device allocation inside
`kdbus_ns_new` fails (after the id and major were assigned), the call returns
`-ENOMEM` and releases the namespace.  The source (src/ns.c line 197) jumps to
`err_unlock` without assigning `ret`, so for the root namespace the leftover
`ret` from the successful `register_chrdev` - namely 0 - is returned: the call
reports success while `*ns` was never set and the namespace was already
released.  Concrete run: empty global state, root creation
(parent = name = NULL), every step succeeding except the `kzalloc` of
`n->dev`. -/
theorem kdbus_ns_new_devAllocFailure_returnsZero :
    kdbus_ns_new ⟨[], 0⟩ none none 0 ⟨true, true, true, 0, true, false, 0, 0⟩ =
      (0, ⟨[], 1⟩, none) ∧
    (0 : Int) ≠ -ENOMEM := by
  decide

theorem kdbus_bus_disconnect_eq (b : KdbusBus) (h : b.disconnected = false) :
    kdbus_bus_disconnect b =
      { b with disconnected := true, linked := false,
               eps := b.eps.map kdbus_ep_disconnect } := by
  unfold kdbus_bus_disconnect
  simp [h]

theorem kdbus_bus_disconnect_self (b : KdbusBus) (h : b.disconnected = true) :
    kdbus_bus_disconnect b = b := by
  unfold kdbus_bus_disconnect
  simp [h]

theorem kdbus_bus_disconnect_flag (b : KdbusBus) :
    (kdbus_bus_disconnect b).disconnected = true := by
  by_cases h : b.disconnected
  · rw [kdbus_bus_disconnect_self b h]; exact h
  · rw [kdbus_bus_disconnect_eq b (by simpa using h)]

theorem kdbus_ns_disconnect_eq (n : KdbusNs) (h : n.disconnected = false) :
    kdbus_ns_disconnect n =
      { n with disconnected := true, linked := false, hasDev := false,
               major := if n.major > 0 then 0 else n.major } := by
  unfold kdbus_ns_disconnect
  by_cases hd : n.hasDev <;> by_cases hm : n.major > 0 <;> simp [h, hd, hm]

theorem kdbus_ns_disconnect_self (n : KdbusNs) (h : n.disconnected = true) :
    kdbus_ns_disconnect n = n := by
  unfold kdbus_ns_disconnect
  simp [h]

theorem kdbus_ns_disconnect_flag (n : KdbusNs) :
    (kdbus_ns_disconnect n).disconnected = true := by
  by_cases h : n.disconnected
  · rw [kdbus_ns_disconnect_self n h]; exact h
  · rw [kdbus_ns_disconnect_eq n (by simpa using h)]

/-- C9: disconnect on buses and namespaces is idempotent and monotonic: an
already-disconnected object is returned unchanged (no further effect), a
second disconnect is a no-op, the flag is set after any disconnect and never
cleared (disconnect is the only operation of the model that writes it), and
the first disconnect performs the unlinking and child teardown (endpoints
disconnected for buses; device unregistered and major released for
namespaces). -/
theorem kdbus_disconnect_idempotent_monotonic (b : KdbusBus) (n : KdbusNs) :
    (b.disconnected = true → kdbus_bus_disconnect b = b) ∧
    kdbus_bus_disconnect (kdbus_bus_disconnect b) = kdbus_bus_disconnect b ∧
    (kdbus_bus_disconnect b).disconnected = true ∧
    (b.disconnected = false → (kdbus_bus_disconnect b).linked = false ∧
      ∀ e ∈ (kdbus_bus_disconnect b).eps, e.disconnected = true) ∧
    (n.disconnected = true → kdbus_ns_disconnect n = n) ∧
    kdbus_ns_disconnect (kdbus_ns_disconnect n) = kdbus_ns_disconnect n ∧
    (kdbus_ns_disconnect n).disconnected = true ∧
    (n.disconnected = false → (kdbus_ns_disconnect n).linked = false ∧
      (kdbus_ns_disconnect n).hasDev = false ∧ ¬ (kdbus_ns_disconnect n).major > 0) := by
  refine ⟨kdbus_bus_disconnect_self b,
          kdbus_bus_disconnect_self _ (kdbus_bus_disconnect_flag b),
          kdbus_bus_disconnect_flag b, ?_,
          kdbus_ns_disconnect_self n,
          kdbus_ns_disconnect_self _ (kdbus_ns_disconnect_flag n),
          kdbus_ns_disconnect_flag n, ?_⟩
  · intro hb
    rw [kdbus_bus_disconnect_eq b hb]
    refine ⟨rfl, ?_⟩
    intro e he
    simp only [List.mem_map] at he
    obtain ⟨a, _, rfl⟩ := he
    rfl
  · intro hn
    rw [kdbus_ns_disconnect_eq n hn]
    refine ⟨rfl, rfl, ?_⟩
    simp only
    split <;> omega

/-- C9 witness: the theorem applied to a live bus/namespace pair and to an
already-disconnected pair. -/
theorem kdbus_disconnect_idempotent_monotonic_witness :
    kdbus_bus_disconnect ⟨0, [97], 0, 64, 0, 1, true, false, []⟩ =
      ⟨0, [97], 0, 64, 0, 1, true, false, []⟩ ∧
    (kdbus_bus_disconnect ⟨0, [97], 0, 64, 0, 1, false, true, [⟨false⟩]⟩).linked = false ∧
    (kdbus_ns_disconnect ⟨0, none, none, 222, true, true, false⟩).disconnected = true :=
  ⟨(kdbus_disconnect_idempotent_monotonic ⟨0, [97], 0, 64, 0, 1, true, false, []⟩
      ⟨0, none, none, 222, true, false, true⟩).1 rfl,
   ((kdbus_disconnect_idempotent_monotonic ⟨0, [97], 0, 64, 0, 1, false, true, [⟨false⟩]⟩
      ⟨0, none, none, 222, true, false, true⟩).2.2.2.1 rfl).1,
   (kdbus_disconnect_idempotent_monotonic ⟨0, [97], 0, 64, 0, 1, false, true, [⟨false⟩]⟩
      ⟨0, none, none, 222, true, true, false⟩).2.2.2.2.2.2.1⟩

/-- C5: for a frame that passes the size precheck, whose item iteration
completes without error, and whose final cursor passes the padding check:
a missing MAKE_NAME item yields `-EBADMSG`; otherwise a `bloom_size` that is
not a multiple of 8 or lies outside [8, 16*1024] yields `-EINVAL`; and only
otherwise does the parse succeed, delivering the accumulated name, cgroup id
and frame. -/
theorem kdbus_bus_make_user_postChecks
    (make : KdbusCmdBusMake) (st : KdbusBusParseState) (cursor : Nat)
    (h24 : 24 ≤ make.size) (hff : make.size ≤ 0xffff)
    (hit : kdbus_items_foreach ⟨none, 0⟩ 24 make.size make.items = .ok (st, cursor))
    (hpad : cursor < make.size + 8) :
    (st.name = none → kdbus_bus_make_user make true true true = (-EBADMSG, none)) ∧
    (st.name.isSome = true →
      ((¬ KDBUS_IS_ALIGNED8 make.bloom_size = true ∨ make.bloom_size < 8 ∨
          make.bloom_size > 16 * 1024) →
        kdbus_bus_make_user make true true true = (-EINVAL, none)) ∧
      (KDBUS_IS_ALIGNED8 make.bloom_size = true → 8 ≤ make.bloom_size →
          make.bloom_size ≤ 16 * 1024 →
        kdbus_bus_make_user make true true true = (0, some ⟨st.name, st.cgroup_id, make⟩))) := by
  have h1 : ¬ (make.size < 24 ∨ make.size > 0xffff) := by omega
  have h2 : ¬ (make.size + 8 ≤ cursor) := by omega
  refine ⟨?_, ?_⟩
  · intro hname
    unfold kdbus_bus_make_user
    rw [hit]
    simp [h1, h2, hname]
  · intro hsome
    have hname : ¬ st.name = none := by
      cases hst : st.name
      · rw [hst] at hsome; simp at hsome
      · simp
    refine ⟨?_, ?_⟩
    · intro hbad
      unfold kdbus_bus_make_user
      rw [hit]
      rcases hbad with h | h | h
      · simp [h1, h2, hname, h]
      · by_cases hA : KDBUS_IS_ALIGNED8 make.bloom_size <;> simp [h1, h2, hname, hA, h]
      · by_cases hA : KDBUS_IS_ALIGNED8 make.bloom_size <;> simp [h1, h2, hname, hA, h]
    · intro hA hlo hhi
      have h3 : ¬ (make.bloom_size < 8 ∨ make.bloom_size > 16 * 1024) := by omega
      unfold kdbus_bus_make_user
      rw [hit]
      simp [h1, h2, hname, hA, h3]

/-- C5 witness: the scenario S3 - a valid single MAKE_NAME frame whose
`bloom_size` is 4, instantiating the misaligned branch: the parse yields
`-EINVAL`. -/
theorem kdbus_bus_make_user_postChecks_witness :
    kdbus_bus_make_user ⟨48, 0, 4, [⟨18, KDBUS_CMD_MAKE_NAME, [97, 0]⟩]⟩ true true true =
      (-EINVAL, none) :=
  ((kdbus_bus_make_user_postChecks ⟨48, 0, 4, [⟨18, KDBUS_CMD_MAKE_NAME, [97, 0]⟩]⟩
      ⟨some [97, 0], 0⟩ 48 (by decide) (by decide) rfl (by decide)).2
    rfl).1 (Or.inl (by decide))

/-- C6: per-item validation of the make-bus parser: an item whose declared
size is at most the 16-byte item header fails with `-EINVAL`; a second
MAKE_NAME occurrence fails with `-EEXIST`; a MAKE_NAME payload shorter than
2 bytes fails with `-EINVAL`; one longer than 64 bytes fails with
`-ENAMETOOLONG`; a payload that is not a valid NUL-terminated string fails
with `-EINVAL`; an item of any other (unknown) type fails with `-ENOTSUPP`;
and any such per-item error is returned verbatim by `kdbus_bus_make_user`
with no parsed command produced. -/
theorem kdbus_bus_make_user_itemValidation :
    (∀ (st : KdbusBusParseState) (it : KdbusCmdMakeItem),
      it.size ≤ KDBUS_ITEM_HEADER_SIZE →
      kdbus_bus_make_user_item st it = .error (-EINVAL)) ∧
    (∀ (st : KdbusBusParseState) (it : KdbusCmdMakeItem),
      KDBUS_ITEM_HEADER_SIZE < it.size → it.type = KDBUS_CMD_MAKE_NAME →
      st.name.isSome = true →
      kdbus_bus_make_user_item st it = .error (-EEXIST)) ∧
    (∀ (st : KdbusBusParseState) (it : KdbusCmdMakeItem),
      KDBUS_ITEM_HEADER_SIZE < it.size → it.type = KDBUS_CMD_MAKE_NAME →
      st.name = none → it.size < KDBUS_ITEM_HEADER_SIZE + 2 →
      kdbus_bus_make_user_item st it = .error (-EINVAL)) ∧
    (∀ (st : KdbusBusParseState) (it : KdbusCmdMakeItem),
      it.type = KDBUS_CMD_MAKE_NAME → st.name = none →
      KDBUS_ITEM_HEADER_SIZE + 64 < it.size →
      kdbus_bus_make_user_item st it = .error (-ENAMETOOLONG)) ∧
    (∀ (st : KdbusBusParseState) (it : KdbusCmdMakeItem),
      it.type = KDBUS_CMD_MAKE_NAME → st.name = none →
      KDBUS_ITEM_HEADER_SIZE + 2 ≤ it.size → it.size ≤ KDBUS_ITEM_HEADER_SIZE + 64 →
      ¬ kdbus_validate_nul (it.payload.take (it.size - KDBUS_ITEM_HEADER_SIZE)) = true →
      kdbus_bus_make_user_item st it = .error (-EINVAL)) ∧
    (∀ (st : KdbusBusParseState) (it : KdbusCmdMakeItem),
      KDBUS_ITEM_HEADER_SIZE < it.size → it.type ≠ KDBUS_CMD_MAKE_NAME →
      it.type ≠ KDBUS_CMD_MAKE_CGROUP →
      kdbus_bus_make_user_item st it = .error (-ENOTSUPP)) ∧
    (∀ (make : KdbusCmdBusMake) (e : Int),
      24 ≤ make.size → make.size ≤ 0xffff →
      kdbus_items_foreach ⟨none, 0⟩ 24 make.size make.items = .error e →
      kdbus_bus_make_user make true true true = (e, none)) := by
  refine ⟨?_, ?_, ?_, ?_, ?_, ?_, ?_⟩
  · intro st it h
    unfold kdbus_bus_make_user_item
    simp [h]
  · intro st it h16 hty hdup
    have h : ¬ it.size ≤ KDBUS_ITEM_HEADER_SIZE := by omega
    unfold kdbus_bus_make_user_item
    simp [h, hty, Option.isSome_iff_exists.mp hdup]
    obtain ⟨v, hv⟩ := Option.isSome_iff_exists.mp hdup
    simp [hv]
  · intro st it h16 hty hnone hshort
    have h : ¬ it.size ≤ KDBUS_ITEM_HEADER_SIZE := by omega
    unfold kdbus_bus_make_user_item
    simp [h, hty, hnone, hshort]
  · intro st it hty hnone hlong
    have h : ¬ it.size ≤ KDBUS_ITEM_HEADER_SIZE := by
      simp only [KDBUS_ITEM_HEADER_SIZE] at hlong ⊢; omega
    have h2 : ¬ it.size < KDBUS_ITEM_HEADER_SIZE + 2 := by
      simp only [KDBUS_ITEM_HEADER_SIZE] at hlong ⊢; omega
    unfold kdbus_bus_make_user_item
    simp [h, hty, hnone, h2, hlong]
  · intro st it hty hnone hlo hhi hnul
    have h : ¬ it.size ≤ KDBUS_ITEM_HEADER_SIZE := by
      simp only [KDBUS_ITEM_HEADER_SIZE] at hlo ⊢; omega
    have h2 : ¬ it.size < KDBUS_ITEM_HEADER_SIZE + 2 := by omega
    have h3 : ¬ it.size > KDBUS_ITEM_HEADER_SIZE + 64 := by omega
    unfold kdbus_bus_make_user_item
    simp [h, hty, hnone, h2, h3, hnul]
  · intro st it h16 hty1 hty2
    have h : ¬ it.size ≤ KDBUS_ITEM_HEADER_SIZE := by omega
    unfold kdbus_bus_make_user_item
    simp [h, hty1, hty2]
  · intro make e h24 hff hfe
    have h1 : ¬ (make.size < 24 ∨ make.size > 0xffff) := by omega
    unfold kdbus_bus_make_user
    rw [hfe]
    simp [h1]

/-- C6 witness: the scenario S4 duplicate - a second MAKE_NAME item arriving
while a name is already recorded yields `-EEXIST`. -/
theorem kdbus_bus_make_user_itemValidation_witness :
    kdbus_bus_make_user_item ⟨some [97, 0], 0⟩ ⟨18, KDBUS_CMD_MAKE_NAME, [98, 0]⟩ =
      .error (-EEXIST) :=
  kdbus_bus_make_user_itemValidation.2.1 ⟨some [97, 0], 0⟩ ⟨18, KDBUS_CMD_MAKE_NAME, [98, 0]⟩
    (by decide) rfl rfl

/-- C7: `kdbus_ns_new` returns `-EINVAL` whenever `(parent == null) XOR
(name != null)` fails to hold; returns `-EEXIST` when a live (not
disconnected) namespace with the same `(parent, name)` pair is in the global
list; and otherwise - all external steps succeeding - creates a namespace
carrying the fresh value of the monotonically increasing id counter and
appends it to the global list.  The hypotheses state that the external calls
succeed and the reachable-state invariants: listed namespaces are live (the
disconnect path unlinks atomically) and their ids are below the counter. -/
theorem kdbus_ns_new_validation
    (g : NsGlobal) (parent : Option Nat) (name : Option (List Nat)) (mode : Nat)
    (o : NsNewOracles)
    (hN : o.allocNs = true) (hS : o.allocName = true) (hP : o.allocPath = true)
    (hC0 : parent = none → o.chrdevRet = 0) (hC1 : parent ≠ none → 0 ≤ o.chrdevRet)
    (hI : o.idrOk = true) (hD : o.allocDev = true) (hR : 0 ≤ o.devRegRet)
    (hLive : ∀ n ∈ g.namespace_list, n.disconnected = false)
    (hIds : ∀ n ∈ g.namespace_list, n.id < g.ns_id_next) :
    (¬ Xor' (parent = none) (name ≠ none) →
      kdbus_ns_new g parent name mode o = (-EINVAL, g, none)) ∧
    ((∃ n ∈ g.namespace_list, n.disconnected = false ∧ n.parent = parent ∧ n.name = name) →
      Xor' (parent = none) (name ≠ none) →
      kdbus_ns_new g parent name mode o = (-EEXIST, g, none)) ∧
    (Xor' (parent = none) (name ≠ none) →
      (¬ ∃ n ∈ g.namespace_list, n.parent = parent ∧ n.name = name) →
      ∃ nNew : KdbusNs,
        kdbus_ns_new g parent name mode o =
          (0, ⟨g.namespace_list ++ [nNew], g.ns_id_next + 1⟩, some nNew) ∧
        nNew.id = g.ns_id_next ∧ nNew.parent = parent ∧ nNew.name = name ∧
        nNew.disconnected = false ∧
        ∀ n ∈ g.namespace_list, n.id ≠ nNew.id) := by
  have hguard : ((parent.isSome ∧ name = none) ∨ (parent = none ∧ name.isSome)) ↔
      ¬ Xor' (parent = none) (name ≠ none) := by
    rcases parent with _ | p <;> rcases name with _ | nm <;> simp [Xor']
  have hfind : (kdbus_ns_find g parent name).isSome = true ↔
      ∃ n ∈ g.namespace_list, n.parent = parent ∧ n.name = name := by
    unfold kdbus_ns_find
    rw [List.find?_isSome]
    simp only [Bool.and_eq_true, beq_iff_eq]
  refine ⟨?_, ?_, ?_⟩
  · intro hx
    unfold kdbus_ns_new
    rw [if_pos (hguard.mpr hx)]
  · intro hex hx
    have hA : ¬ ((parent.isSome ∧ name = none) ∨ (parent = none ∧ name.isSome)) :=
      fun hA => (hguard.mp hA) hx
    have hs : (kdbus_ns_find g parent name).isSome = true := by
      rw [hfind]
      obtain ⟨n, hn, _, hpar, hnm⟩ := hex
      exact ⟨n, hn, hpar, hnm⟩
    unfold kdbus_ns_new
    rw [if_neg hA, if_pos hs]
  · intro hx hnex
    have hA : ¬ ((parent.isSome ∧ name = none) ∨ (parent = none ∧ name.isSome)) :=
      fun hA => (hguard.mp hA) hx
    have hs : ¬ (kdbus_ns_find g parent name).isSome = true := by
      rw [hfind]; exact hnex
    have hfresh : ∀ n ∈ g.namespace_list, n.id ≠ g.ns_id_next :=
      fun n hn => Nat.ne_of_lt (hIds n hn)
    cases hp : parent with
    | none =>
      subst hp
      have hnm : name = none := by
        rcases hx with ⟨h1, h2⟩ | ⟨h1, h2⟩
        · simpa using h2
        · exact absurd rfl h2
      subst hnm
      refine ⟨⟨g.ns_id_next, none, none, KDBUS_CHAR_MAJOR, true, true, false⟩, ?_, rfl, rfl,
              rfl, rfl, hfresh⟩
      unfold kdbus_ns_new kdbus_ns_new_common
      rw [if_neg hA, if_neg hs]
      simp [hN, hS, hP, hC0 rfl, hI, hD, show ¬ o.devRegRet < 0 by omega]
    | some p =>
      subst hp
      have hnm : name ≠ none := by
        rcases hx with ⟨h1, h2⟩ | ⟨h1, h2⟩
        · exact absurd h1 (by simp)
        · exact h1
      refine ⟨⟨g.ns_id_next, some p, name, o.chrdevRet, true, true, false⟩, ?_, rfl, rfl,
              rfl, rfl, hfresh⟩
      have hCge : 0 ≤ o.chrdevRet := hC1 (by simp)
      unfold kdbus_ns_new kdbus_ns_new_common
      rw [if_neg hA, if_neg hs]
      simp [hN, hS, hP, hI, hD, show ¬ o.chrdevRet < 0 by omega,
            show ¬ o.devRegRet < 0 by omega]

/-- C7 witness: the theorem applied to root-namespace creation in the empty
global state with all external steps succeeding. -/
theorem kdbus_ns_new_validation_witness :
    ∃ nNew : KdbusNs,
      kdbus_ns_new ⟨[], 0⟩ none none 0 ⟨true, true, true, 0, true, true, 0, 0⟩ =
        (0, ⟨[] ++ [nNew], 1⟩, some nNew) ∧
      nNew.id = 0 ∧ nNew.parent = none ∧ nNew.name = none ∧ nNew.disconnected = false ∧
      ∀ n ∈ ([] : List KdbusNs), n.id ≠ nNew.id :=
  (kdbus_ns_new_validation ⟨[], 0⟩ none none 0 ⟨true, true, true, 0, true, true, 0, 0⟩
      rfl rfl rfl (fun _ => rfl) (fun h => absurd rfl h) rfl rfl (by decide)
      (by simp) (by simp)).2.2 (Or.inl ⟨rfl, by simp⟩) (by simp)

/-- Byte footprint of an item sequence: every item occupies its 8-byte-aligned
declared size. -/
def itemsBytes (l : List KMetaItem) : Nat := (l.map fun it => KDBUS_ALIGN8 it.size).sum

/-- The buffer invariant of a metadata object (spec section 3 and property 6
of section 8): the occupied size fits the allocation, is a multiple of 8, and
equals the summed footprint of the items; a missing buffer means nothing is
occupied; and every item carries at least the 16-byte header with a payload
matching its declared size. -/
def metaWf (m : KdbusMeta) : Prop :=
  m.size ≤ m.allocated_size ∧
  m.size % 8 = 0 ∧
  itemsBytes m.items = m.size ∧
  (m.dataAllocated = false → m.size = 0 ∧ m.allocated_size = 0) ∧
  ∀ it ∈ m.items, KDBUS_ITEM_HEADER_SIZE ≤ it.size ∧
    it.payload.length + KDBUS_ITEM_HEADER_SIZE = it.size

instance (m : KdbusMeta) : Decidable (metaWf m) := by
  unfold metaWf; infer_instance

theorem itemsBytes_mod8 (l : List KMetaItem) : itemsBytes l % 8 = 0 := by
  induction l with
  | nil => rfl
  | cons x t ih =>
    have hx := KDBUS_ALIGN8_mod8 x.size
    simp only [itemsBytes, List.map_cons, List.sum_cons] at *
    omega

theorem metaPush_wf (m : KdbusMeta) (ty : Nat) (p : List Nat)
    (h : metaWf m) (hda : m.dataAllocated = true)
    (hfit : m.size + KDBUS_ITEM_SIZE p.length ≤ m.allocated_size) :
    metaWf (metaPush m ty p) := by
  obtain ⟨hle, hmod, hbytes, hinit, hitems⟩ := h
  have hal : KDBUS_ITEM_SIZE p.length % 8 = 0 := KDBUS_ALIGN8_mod8 _
  refine ⟨by simpa [metaPush] using hfit, ?_, ?_, by simp [metaPush, hda], ?_⟩
  · simp only [metaPush]
    omega
  · simp only [metaPush, itemsBytes, List.map_append, List.sum_append, List.map_cons,
               List.sum_cons, List.map_nil, List.sum_nil]
    have harg : KDBUS_ALIGN8 (KDBUS_ITEM_HEADER_SIZE + p.length) = KDBUS_ITEM_SIZE p.length := by
      unfold KDBUS_ITEM_SIZE
      rw [Nat.add_comm]
    rw [harg]
    simp only [itemsBytes] at hbytes
    omega
  · intro it hit
    simp only [metaPush, List.mem_append, List.mem_singleton] at hit
    rcases hit with hit | rfl
    · exact hitems it hit
    · exact ⟨Nat.le_add_right _ _, Nat.add_comm _ _⟩

/-- The three facts every collector call preserves: `meta->attached` is not
written, the item sequence is only extended, and the buffer invariant is
maintained (also on the failure paths, which leave the object unchanged or
keep only already-valid records). -/
def stepOk (f : KdbusMeta → Int × KdbusMeta) : Prop :=
  ∀ m : KdbusMeta, ((f m).2).attached = m.attached ∧
    (∃ t, ((f m).2).items = m.items ++ t) ∧
    (metaWf m → metaWf ((f m).2))

theorem stepOk_appendItem (ty : Nat) (p : List Nat) (a : Bool) :
    stepOk (fun m => kdbus_meta_append_item m ty p a) := by
  intro m
  unfold kdbus_meta_append_item
  simp only []
  by_cases h1 : ¬ m.dataAllocated ∧ ¬ a
  · simp [h1]
  · rw [if_neg h1]
    by_cases hda : m.dataAllocated
    · rw [if_pos hda]
      by_cases hg : m.size + KDBUS_ITEM_SIZE p.length > m.allocated_size
      · rw [if_pos hg]
        by_cases ha : a
        · rw [if_neg (by simp [ha])]
          refine ⟨rfl, ⟨_, rfl⟩, ?_⟩
          intro hw
          obtain ⟨hle, hmod, hbytes, hinit, hitems⟩ := hw
          refine metaPush_wf _ ty p
            ⟨le_trans (Nat.le_add_right m.size _) (le_roundup_pow_of_two _),
             hmod, hbytes, by simp [hda], hitems⟩ (by simpa using hda)
            (le_roundup_pow_of_two _)
        · rw [if_pos (by simp [ha])]
          exact ⟨rfl, ⟨[], by simp⟩, fun hw => hw⟩
      · rw [if_neg hg]
        refine ⟨rfl, ⟨_, rfl⟩, ?_⟩
        intro hw
        exact metaPush_wf m ty p hw (by simpa using hda) (by omega)
    · rw [if_neg hda]
      have hnd : m.dataAllocated = false := by simpa using hda
      by_cases hg : m.size + KDBUS_ITEM_SIZE p.length >
          roundup_pow_of_two (256 + KDBUS_ITEM_SIZE p.length)
      · rw [if_pos hg]
        by_cases ha : a
        · rw [if_neg (by simp [ha])]
          refine ⟨rfl, ⟨_, rfl⟩, ?_⟩
          intro hw
          obtain ⟨hle, hmod, hbytes, hinit, hitems⟩ := hw
          refine metaPush_wf _ ty p
            ⟨le_trans (Nat.le_add_right m.size _) (le_roundup_pow_of_two _),
             hmod, hbytes, by simp, hitems⟩ rfl (le_roundup_pow_of_two _)
        · rw [if_pos (by simp [ha])]
          refine ⟨rfl, ⟨[], by simp⟩, ?_⟩
          intro hw
          obtain ⟨hle, hmod, hbytes, hinit, hitems⟩ := hw
          obtain ⟨hz, _⟩ := hinit hnd
          exact ⟨by simp [hz], hmod, hbytes, by simp, hitems⟩
      · rw [if_neg hg]
        refine ⟨rfl, ⟨_, rfl⟩, ?_⟩
        intro hw
        obtain ⟨hle, hmod, hbytes, hinit, hitems⟩ := hw
        obtain ⟨hz, _⟩ := hinit hnd
        refine metaPush_wf _ ty p ⟨?_, hmod, hbytes, by simp, hitems⟩ rfl (by simpa using hg)
        simp [hz]

theorem stepOk_appendData (ty : Nat) (d : Option (List Nat)) (len : Nat) (a : Bool) :
    stepOk (fun m => kdbus_meta_append_data m ty d len a) := by
  intro m
  unfold kdbus_meta_append_data
  simp only []
  by_cases h : len = 0
  · simp [h]
  · rw [if_neg h]
    exact stepOk_appendItem _ _ _ m

theorem stepOk_appendStr (ty : Nat) (s : List Nat) (a : Bool) :
    stepOk (fun m => kdbus_meta_append_str m ty s a) := by
  intro m
  unfold kdbus_meta_append_str
  simp only []
  exact stepOk_appendData _ _ _ _ m

theorem stepOk_const : stepOk (fun m => (0, m)) :=
  fun _ => ⟨rfl, ⟨[], by simp⟩, fun h => h⟩

theorem stepOk_metaStep (f g : KdbusMeta → Int × KdbusMeta)
    (hf : stepOk f) (hg : stepOk g) : stepOk (fun m => metaStep (f m) g) := by
  intro m
  unfold metaStep
  simp only []
  by_cases h : (f m).1 < 0
  · rw [if_pos h]
    exact hf m
  · rw [if_neg h]
    obtain ⟨ha1, ⟨t1, ht1⟩, hw1⟩ := hf m
    obtain ⟨ha2, ⟨t2, ht2⟩, hw2⟩ := hg (f m).2
    exact ⟨by rw [ha2, ha1], ⟨t1 ++ t2, by rw [ht2, ht1, List.append_assoc]⟩,
           fun hw => hw2 (hw1 hw)⟩

theorem stepOk_if (c : Prop) [Decidable c] (f : KdbusMeta → Int × KdbusMeta)
    (hf : stepOk f) : stepOk (fun m => if c then f m else (0, m)) := by
  intro m
  by_cases h : c
  · simpa [h] using hf m
  · simp [h]

theorem stepOk_timestamp (seq : Nat) (env : MetaEnv) :
    stepOk (fun m => kdbus_meta_append_timestamp m seq env) := by
  intro m
  unfold kdbus_meta_append_timestamp
  simp only []
  exact stepOk_appendItem _ _ _ m

theorem stepOk_cred (env : MetaEnv) : stepOk (fun m => kdbus_meta_append_cred m env) := by
  intro m
  unfold kdbus_meta_append_cred
  simp only []
  exact stepOk_appendData _ _ _ _ m

theorem stepOk_auxgroups (env : MetaEnv) :
    stepOk (fun m => kdbus_meta_append_auxgroups m env) := by
  intro m
  unfold kdbus_meta_append_auxgroups
  simp only []
  exact stepOk_appendItem _ _ _ m

theorem stepOk_namesList (l : List (Nat × List Nat)) (a : Bool) :
    stepOk (fun m => kdbus_meta_append_names_list m l a) := by
  induction l with
  | nil =>
    intro m
    exact ⟨rfl, ⟨[], by simp [kdbus_meta_append_names_list]⟩, fun h => h⟩
  | cons x t ih =>
    intro m
    obtain ⟨fl, nm⟩ := x
    unfold kdbus_meta_append_names_list
    simp only []
    by_cases h : (kdbus_meta_append_item m KDBUS_ITEM_NAME (le64 fl ++ nm ++ [0]) a).1 < 0
    · rw [if_pos h]
      exact stepOk_appendItem _ _ _ m
    · rw [if_neg h]
      obtain ⟨ha1, ⟨t1, ht1⟩, hw1⟩ := stepOk_appendItem KDBUS_ITEM_NAME (le64 fl ++ nm ++ [0]) a m
      obtain ⟨ha2, ⟨t2, ht2⟩, hw2⟩ :=
        ih (kdbus_meta_append_item m KDBUS_ITEM_NAME (le64 fl ++ nm ++ [0]) a).2
      exact ⟨by rw [ha2, ha1], ⟨t1 ++ t2, by rw [ht2, ht1, List.append_assoc]⟩,
             fun hw => hw2 (hw1 hw)⟩

theorem stepOk_srcNames (conn : Option KdbusConnM) (env : MetaEnv) :
    stepOk (fun m => kdbus_meta_append_src_names m conn env) := by
  intro m
  unfold kdbus_meta_append_src_names
  cases conn with
  | none => exact ⟨rfl, ⟨[], by simp⟩, fun h => h⟩
  | some c =>
    simp only []
    exact stepOk_namesList c.names_list env.alloc_ok m

theorem stepOk_exe (env : MetaEnv) : stepOk (fun m => kdbus_meta_append_exe m env) := by
  intro m
  unfold kdbus_meta_append_exe
  simp only []
  by_cases hm : ¬ env.has_mm
  · simp [hm]
  · rw [if_neg hm]
    cases env.exe_path with
    | none => exact ⟨rfl, ⟨[], by simp⟩, fun h => h⟩
    | some p =>
      simp only []
      by_cases ha : ¬ env.alloc_ok
      · simp [ha]
      · rw [if_neg ha]
        by_cases hd : ¬ env.dpath_ok
        · simp [hd]
        · rw [if_neg hd]
          exact stepOk_appendData _ _ _ _ m

theorem stepOk_cmdline (env : MetaEnv) : stepOk (fun m => kdbus_meta_append_cmdline m env) := by
  intro m
  unfold kdbus_meta_append_cmdline
  simp only []
  by_cases ha : ¬ env.alloc_ok
  · simp [ha]
  · rw [if_neg ha]
    by_cases hm : ¬ env.has_mm
    · simp [hm]
    · rw [if_neg hm]
      cases env.arg with
      | none => exact ⟨rfl, ⟨[], by simp⟩, fun h => h⟩
      | some s =>
        simp only []
        exact stepOk_appendData _ _ _ _ m

theorem stepOk_caps (env : MetaEnv) : stepOk (fun m => kdbus_meta_append_caps m env) := by
  intro m
  unfold kdbus_meta_append_caps
  simp only []
  exact stepOk_appendData _ _ _ _ m

theorem stepOk_cgroup (env : MetaEnv) : stepOk (fun m => kdbus_meta_append_cgroup m env) := by
  intro m
  unfold kdbus_meta_append_cgroup
  simp only []
  by_cases ha : ¬ env.alloc_ok
  · simp [ha]
  · rw [if_neg ha]
    cases env.cgroup_path with
    | none => exact ⟨rfl, ⟨[], by simp⟩, fun h => h⟩
    | some p =>
      simp only []
      exact stepOk_appendStr _ _ _ m

theorem stepOk_audit (env : MetaEnv) : stepOk (fun m => kdbus_meta_append_audit m env) := by
  intro m
  unfold kdbus_meta_append_audit
  simp only []
  exact stepOk_appendData _ _ _ _ m

theorem stepOk_seclabel (env : MetaEnv) :
    stepOk (fun m => kdbus_meta_append_seclabel m env) := by
  intro m
  unfold kdbus_meta_append_seclabel
  cases env.seclabel with
  | notsupp => exact ⟨rfl, ⟨[], by simp⟩, fun h => h⟩
  | fail e => exact ⟨rfl, ⟨[], by simp⟩, fun h => h⟩
  | label l =>
    simp only []
    by_cases h : l.length > 0
    · rw [if_pos h]
      exact stepOk_appendData _ _ _ _ m
    · rw [if_neg h]
      exact ⟨rfl, ⟨[], by simp⟩, fun h => h⟩

theorem metaSteps_stepOk (conn : Option KdbusConnM) (seq mask : Nat) (env : MetaEnv) :
    ∀ f ∈ metaSteps conn seq mask env, stepOk f := by
  intro f hf
  unfold metaSteps at hf
  simp only [List.mem_cons, List.not_mem_nil, or_false] at hf
  rcases hf with rfl | rfl | rfl | rfl | rfl | rfl | rfl | rfl | rfl | rfl | rfl | rfl
  · exact stepOk_if _ _ (stepOk_timestamp seq env)
  · exact stepOk_if _ _ (stepOk_cred env)
  · exact stepOk_if _ _ (stepOk_auxgroups env)
  · exact stepOk_if _ _ (stepOk_srcNames conn env)
  · exact stepOk_if _ _ (stepOk_metaStep _ _
      (stepOk_appendStr KDBUS_ITEM_TID_COMM env.comm_tid env.alloc_ok)
      (stepOk_appendStr KDBUS_ITEM_PID_COMM env.comm_pid env.alloc_ok))
  · exact stepOk_if _ _ (stepOk_exe env)
  · exact stepOk_if _ _ (stepOk_cmdline env)
  · exact stepOk_if _ _ (stepOk_caps env)
  · exact stepOk_if _ _ (stepOk_cgroup env)
  · exact stepOk_if _ _ (stepOk_audit env)
  · exact stepOk_if _ _ (stepOk_seclabel env)
  · exact stepOk_if _ _ (stepOk_appendStr _ _ _)

theorem foldl_metaStep_ok (l : List (KdbusMeta → Int × KdbusMeta))
    (hl : ∀ f ∈ l, stepOk f) :
    ∀ r : Int × KdbusMeta,
      ((l.foldl metaStep r).2).attached = r.2.attached ∧
      (∃ t, ((l.foldl metaStep r).2).items = r.2.items ++ t) ∧
      (metaWf r.2 → metaWf ((l.foldl metaStep r).2)) := by
  induction l with
  | nil => exact fun r => ⟨rfl, ⟨[], by simp⟩, fun h => h⟩
  | cons f t ih =>
    intro r
    have hf := hl f (List.mem_cons_self f t)
    have ht : ∀ g ∈ t, stepOk g := fun g hg => hl g (List.mem_cons_of_mem f hg)
    rw [List.foldl_cons]
    obtain ⟨ha2, ⟨t2, ht2⟩, hw2⟩ := ih ht (metaStep r f)
    have hs : (metaStep r f).2.attached = r.2.attached ∧
        (∃ u, (metaStep r f).2.items = r.2.items ++ u) ∧
        (metaWf r.2 → metaWf (metaStep r f).2) := by
      unfold metaStep
      by_cases h : r.1 < 0
      · rw [if_pos h]
        exact ⟨rfl, ⟨[], by simp⟩, fun h => h⟩
      · rw [if_neg h]
        exact hf r.2
    obtain ⟨ha1, ⟨t1, ht1⟩, hw1⟩ := hs
    exact ⟨by rw [ha2, ha1], ⟨t1 ++ t2, by rw [ht2, ht1, List.append_assoc]⟩,
           fun hw => hw2 (hw1 hw)⟩

theorem land_not64_absorb (w a : Nat) (hw : w < 2 ^ 64) :
    w &&& not64 (a ||| (w &&& not64 a)) = 0 := by
  apply Nat.eq_of_testBit_eq
  intro i
  have h1 : ((2 ^ 64 - 1 : Nat)).testBit i = decide (i < 64) := Nat.testBit_two_pow_sub_one 64 i
  simp only [not64, Nat.testBit_land, Nat.testBit_lor, Nat.testBit_xor, h1, Nat.zero_testBit]
  rcases Nat.lt_or_ge i 64 with h | h
  · simp only [h, decide_eq_true_eq, decide_True]
    cases w.testBit i <;> cases a.testBit i <;> rfl
  · have h2 : w.testBit i = false :=
      Nat.testBit_eq_false_of_lt (lt_of_lt_of_le hw (Nat.pow_le_pow_right (by omega) h))
    simp [h2]

theorem kdbus_meta_append_mask_zero (m : KdbusMeta) (conn : Option KdbusConnM)
    (seq which : Nat) (env : MetaEnv) (h : which &&& not64 m.attached = 0) :
    kdbus_meta_append m conn seq which env = (0, m) := by
  unfold kdbus_meta_append
  simp [h]

theorem kdbus_meta_append_cases (m : KdbusMeta) (conn : Option KdbusConnM)
    (seq which : Nat) (env : MetaEnv) :
    (which &&& not64 m.attached = 0 ∧
      kdbus_meta_append m conn seq which env = (0, m)) ∨
    (which &&& not64 m.attached ≠ 0 ∧
      ∃ r : Int × KdbusMeta,
        kdbus_meta_append m conn seq which env =
          (if r.1 < 0 then r
           else (0, { r.2 with
                      attached := r.2.attached ||| (which &&& not64 m.attached) })) ∧
        r.2.attached = m.attached ∧ (∃ t, r.2.items = m.items ++ t) ∧
        (metaWf m → metaWf r.2)) := by
  by_cases h : which &&& not64 m.attached = 0
  · exact Or.inl ⟨h, kdbus_meta_append_mask_zero m conn seq which env h⟩
  · refine Or.inr ⟨h, (metaSteps conn seq (which &&& not64 m.attached) env).foldl
      metaStep (0, m), ?_, ?_⟩
    · unfold kdbus_meta_append
      simp [h]
    · exact foldl_metaStep_ok _ (metaSteps_stepOk conn seq _ env) (0, m)

/-- A concrete collector environment for the end-to-end metadata scenarios:
allocations succeed, the task has an mm but no exe file, one-letter comm
strings, no auxiliary groups. -/
def metaEnvBase : MetaEnv :=
  { alloc_ok := true, mono_ns := 5, real_ns := 6, uid := 1000, gid := 1000, pid := 7,
    tid := 7, starttime := 9, groups := [], comm_tid := [116], comm_pid := [99],
    has_mm := true, exe_path := none, dpath_ok := true, arg := none,
    cap_inh := 0, cap_prm := 0, cap_eff := 0, cap_bset := 0, cgroup_path := none,
    loginuid := 0, sessionid := 0, seclabel := SecLabelRes.notsupp }

/-- The base environment with no mm: the EXE collector fails with -EFAULT. -/
def metaEnvNoMm : MetaEnv := { metaEnvBase with has_mm := false }

/-- The base environment with an executable path "/x": the EXE collector
succeeds. -/
def metaEnvWithExe : MetaEnv := { metaEnvBase with exe_path := some [47, 120] }

/-- C4: `kdbus_meta_append` is idempotent per mask: if a call succeeds, a
second call with the same mask returns 0 immediately and leaves the object -
buffer contents and `attached` - exactly as the first call left it (the
`which & ~attached` computation is empty because success set all the bits).
The closed conjuncts instantiate scenario S6: mask CREDS|COMM on a fresh
object yields exactly one CREDS item and two COMM items, both attach bits
set, and the repeated call returns the identical object. -/
theorem kdbus_meta_append_idempotent :
    (∀ (m : KdbusMeta) (conn : Option KdbusConnM) (seq which : Nat) (env env2 : MetaEnv)
        (m2 : KdbusMeta), which < 2 ^ 64 →
        kdbus_meta_append m conn seq which env = (0, m2) →
        kdbus_meta_append m2 conn seq which env2 = (0, m2)) ∧
    (kdbus_meta_append kdbus_meta_new_obj none 42
        (KDBUS_ATTACH_CREDS ||| KDBUS_ATTACH_COMM) metaEnvBase).1 = 0 ∧
    ((kdbus_meta_append kdbus_meta_new_obj none 42
        (KDBUS_ATTACH_CREDS ||| KDBUS_ATTACH_COMM) metaEnvBase).2.items.filter
          (fun it => it.type == KDBUS_ITEM_CREDS)).length = 1 ∧
    ((kdbus_meta_append kdbus_meta_new_obj none 42
        (KDBUS_ATTACH_CREDS ||| KDBUS_ATTACH_COMM) metaEnvBase).2.items.filter
          (fun it => it.type == KDBUS_ITEM_TID_COMM || it.type == KDBUS_ITEM_PID_COMM)).length
       = 2 ∧
    ((kdbus_meta_append kdbus_meta_new_obj none 42
        (KDBUS_ATTACH_CREDS ||| KDBUS_ATTACH_COMM) metaEnvBase).2.attached &&&
        KDBUS_ATTACH_CREDS) ≠ 0 ∧
    ((kdbus_meta_append kdbus_meta_new_obj none 42
        (KDBUS_ATTACH_CREDS ||| KDBUS_ATTACH_COMM) metaEnvBase).2.attached &&&
        KDBUS_ATTACH_COMM) ≠ 0 ∧
    kdbus_meta_append
        (kdbus_meta_append kdbus_meta_new_obj none 42
          (KDBUS_ATTACH_CREDS ||| KDBUS_ATTACH_COMM) metaEnvBase).2 none 42
        (KDBUS_ATTACH_CREDS ||| KDBUS_ATTACH_COMM) metaEnvBase =
      (0, (kdbus_meta_append kdbus_meta_new_obj none 42
          (KDBUS_ATTACH_CREDS ||| KDBUS_ATTACH_COMM) metaEnvBase).2) := by
  refine ⟨?_, by decide, by decide, by decide, by decide, by decide, by decide⟩
  intro m conn seq which env env2 m2 hw h
  rcases kdbus_meta_append_cases m conn seq which env with ⟨h0, heq⟩ | ⟨hne, r, heq, hatt, _, _⟩
  · rw [heq] at h
    injection h with h1 h2
    subst h2
    exact kdbus_meta_append_mask_zero _ conn seq which env2 h0
  · rw [heq] at h
    by_cases hr : r.1 < 0
    · rw [if_pos hr] at h
      rw [h] at hr
      simp at hr
    · rw [if_neg hr] at h
      injection h with h1 h2
      subst h2
      apply kdbus_meta_append_mask_zero
      show which &&& not64 (r.2.attached ||| (which &&& not64 m.attached)) = 0
      rw [hatt]
      exact land_not64_absorb which m.attached hw

/-- C4 witness: the general idempotence applied to the S6 instance. -/
theorem kdbus_meta_append_idempotent_witness :
    kdbus_meta_append
        (kdbus_meta_append kdbus_meta_new_obj none 42 18 metaEnvBase).2 none 42 18
        metaEnvBase =
      (0, (kdbus_meta_append kdbus_meta_new_obj none 42 18 metaEnvBase).2) :=
  kdbus_meta_append_idempotent.1 kdbus_meta_new_obj none 42 18 metaEnvBase metaEnvBase
    (kdbus_meta_append kdbus_meta_new_obj none 42 18 metaEnvBase).2 (by decide) (by decide)

/-- C10: when `kdbus_meta_append` fails partway, `meta->attached` is left
entirely unchanged while the records appended before the failure stay in the
buffer; a subsequent successful call with the same mask therefore processes
the full `which & ~attached` set again and sets all its bits - duplicating
the records that predate the failure.  The closed conjuncts run the concrete
scenario: mask CREDS|EXE with no mm fails with -EFAULT leaving one CREDS item
and `attached = 0`; the retry in an environment with an exe appends CREDS and
EXE again, ending with items CREDS, CREDS, EXE. -/
theorem kdbus_meta_append_failure_semantics :
    (∀ (m : KdbusMeta) (conn : Option KdbusConnM) (seq which : Nat) (env : MetaEnv)
        (e : Int) (m2 : KdbusMeta),
        kdbus_meta_append m conn seq which env = (e, m2) → e < 0 →
        m2.attached = m.attached ∧ (∃ t, m2.items = m.items ++ t) ∧
        (∀ (env2 : MetaEnv) (m3 : KdbusMeta),
          kdbus_meta_append m2 conn seq which env2 = (0, m3) →
          m3.attached = m.attached ||| (which &&& not64 m.attached))) ∧
    (kdbus_meta_append kdbus_meta_new_obj none 1
        (KDBUS_ATTACH_CREDS ||| KDBUS_ATTACH_EXE) metaEnvNoMm).1 = -EFAULT ∧
    (kdbus_meta_append kdbus_meta_new_obj none 1
        (KDBUS_ATTACH_CREDS ||| KDBUS_ATTACH_EXE) metaEnvNoMm).2.attached = 0 ∧
    (kdbus_meta_append kdbus_meta_new_obj none 1
        (KDBUS_ATTACH_CREDS ||| KDBUS_ATTACH_EXE) metaEnvNoMm).2.items.map KMetaItem.type =
      [KDBUS_ITEM_CREDS] ∧
    (kdbus_meta_append
        (kdbus_meta_append kdbus_meta_new_obj none 1
          (KDBUS_ATTACH_CREDS ||| KDBUS_ATTACH_EXE) metaEnvNoMm).2 none 1
        (KDBUS_ATTACH_CREDS ||| KDBUS_ATTACH_EXE) metaEnvWithExe).1 = 0 ∧
    (kdbus_meta_append
        (kdbus_meta_append kdbus_meta_new_obj none 1
          (KDBUS_ATTACH_CREDS ||| KDBUS_ATTACH_EXE) metaEnvNoMm).2 none 1
        (KDBUS_ATTACH_CREDS ||| KDBUS_ATTACH_EXE) metaEnvWithExe).2.items.map KMetaItem.type =
      [KDBUS_ITEM_CREDS, KDBUS_ITEM_CREDS, KDBUS_ITEM_EXE] ∧
    (kdbus_meta_append
        (kdbus_meta_append kdbus_meta_new_obj none 1
          (KDBUS_ATTACH_CREDS ||| KDBUS_ATTACH_EXE) metaEnvNoMm).2 none 1
        (KDBUS_ATTACH_CREDS ||| KDBUS_ATTACH_EXE) metaEnvWithExe).2.attached =
      (KDBUS_ATTACH_CREDS ||| KDBUS_ATTACH_EXE) := by
  refine ⟨?_, by decide, by decide, by decide, by decide, by decide, by decide⟩
  intro m conn seq which env e m2 h he
  rcases kdbus_meta_append_cases m conn seq which env with
    ⟨h0, heq⟩ | ⟨hne, r, heq, hatt, hext, _⟩
  · rw [heq] at h
    injection h with h1 h2
    rw [← h1] at he
    exact absurd he (by omega)
  · rw [heq] at h
    by_cases hr : r.1 < 0
    · rw [if_pos hr] at h
      subst h
      refine ⟨hatt, hext, ?_⟩
      intro env2 m3 h3
      rcases kdbus_meta_append_cases (e, m2).2 conn seq which env2 with
        ⟨h0b, heqb⟩ | ⟨hneb, r2, heqb, hattb, _, _⟩
      · rw [show (e, m2).2.attached = m.attached from hatt] at h0b
        exact absurd h0b hne
      · rw [heqb] at h3
        by_cases hr2 : r2.1 < 0
        · rw [if_pos hr2] at h3
          rw [h3] at hr2
          simp at hr2
        · rw [if_neg hr2] at h3
          injection h3 with h31 h32
          subst h32
          show r2.2.attached ||| (which &&& not64 (e, m2).2.attached) =
            m.attached ||| (which &&& not64 m.attached)
          rw [hattb, hatt]
    · rw [if_neg hr] at h
      injection h with h1 h2
      rw [← h1] at he
      exact absurd he (by omega)

/-- C10 witness: the general failure semantics applied to the concrete
CREDS|EXE run (mask 34) that fails with -EFAULT on the EXE record. -/
theorem kdbus_meta_append_failure_semantics_witness :
    (kdbus_meta_append kdbus_meta_new_obj none 1 34 metaEnvNoMm).2.attached =
      kdbus_meta_new_obj.attached :=
  (kdbus_meta_append_failure_semantics.1 kdbus_meta_new_obj none 1 34 metaEnvNoMm
    (-EFAULT) (kdbus_meta_append kdbus_meta_new_obj none 1 34 metaEnvNoMm).2
    (by decide) (by decide)).1

/-- C8: the buffer invariant - `size ≤ allocated_size`, `size` a multiple of
8, the buffer a concatenation of items each carrying at least the 16-byte
header with payload matching its declared size and total footprint equal to
`size`, every item starting on an 8-byte boundary (all take-slices of the
footprint sum are multiples of 8) - holds for a fresh metadata object and is
preserved by every successful `kdbus_meta_append_item`,
`kdbus_meta_append_data` and `kdbus_meta_append` call. -/
theorem kdbus_meta_buffer_invariant :
    metaWf kdbus_meta_new_obj ∧
    (∀ (m : KdbusMeta) (ty : Nat) (p : List Nat) (a : Bool) (m2 : KdbusMeta),
      kdbus_meta_append_item m ty p a = (0, m2) → metaWf m →
      metaWf m2 ∧ ∀ k, itemsBytes (m2.items.take k) % 8 = 0) ∧
    (∀ (m : KdbusMeta) (ty : Nat) (d : Option (List Nat)) (len : Nat) (a : Bool)
        (m2 : KdbusMeta),
      kdbus_meta_append_data m ty d len a = (0, m2) → metaWf m →
      metaWf m2 ∧ ∀ k, itemsBytes (m2.items.take k) % 8 = 0) ∧
    (∀ (m : KdbusMeta) (conn : Option KdbusConnM) (seq which : Nat) (env : MetaEnv)
        (m2 : KdbusMeta),
      kdbus_meta_append m conn seq which env = (0, m2) → metaWf m →
      metaWf m2 ∧ ∀ k, itemsBytes (m2.items.take k) % 8 = 0) := by
  refine ⟨by decide, ?_, ?_, ?_⟩
  · intro m ty p a m2 h hw
    have h2 := (stepOk_appendItem ty p a m).2.2 hw
    simp only [] at h2
    rw [h] at h2
    exact ⟨h2, fun k => itemsBytes_mod8 _⟩
  · intro m ty d len a m2 h hw
    have h2 := (stepOk_appendData ty d len a m).2.2 hw
    simp only [] at h2
    rw [h] at h2
    exact ⟨h2, fun k => itemsBytes_mod8 _⟩
  · intro m conn seq which env m2 h hw
    rcases kdbus_meta_append_cases m conn seq which env with
      ⟨h0, heq⟩ | ⟨hne, r, heq, hatt, hext, hwf⟩
    · rw [heq] at h
      injection h with h1 h2
      subst h2
      exact ⟨hw, fun k => itemsBytes_mod8 _⟩
    · rw [heq] at h
      by_cases hr : r.1 < 0
      · rw [if_pos hr] at h
        rw [h] at hr
        simp at hr
      · rw [if_neg hr] at h
        injection h with h1 h2
        subst h2
        exact ⟨hwf hw, fun k => itemsBytes_mod8 _⟩

/-- C8 witness: the invariant for a fresh object and after a concrete
successful CREDS|COMM append. -/
theorem kdbus_meta_buffer_invariant_witness :
    metaWf (kdbus_meta_append kdbus_meta_new_obj none 42 18 metaEnvBase).2 :=
  (kdbus_meta_buffer_invariant.2.2.2 kdbus_meta_new_obj none 42 18 metaEnvBase
    (kdbus_meta_append kdbus_meta_new_obj none 42 18 metaEnvBase).2
    (by decide) (by decide)).1
